import Mathlib

/- Shallow embedding of the spkeeper synchronization engine (main.go).

   The database is abstracted as a fetch function returning, per procedure
   name, either a query error or the list of result rows; each row either
   scans to a text fragment or fails to scan.  The filesystem is an
   association list from paths to file contents; creating a file truncates
   any previous content at that path.  The git layer is abstracted as an
   environment recording the outcome of each libgit2 call made by
   commitChanges.  Goroutine scheduling is modelled by processing names in
   list order together with permutation theorems over the multiset of
   per-procedure outcomes, which is the only state shared across workers. -/

/-- A single quote character, used in the commit message. -/
def sQuote : String := String.singleton (Char.ofNat 39)

/-- List-level prefix test used to model strings.Contains. -/
def isPrefixOfL : List Char → List Char → Bool
  | [], _ => true
  | _ :: _, [] => false
  | a :: as, b :: bs => a == b && isPrefixOfL as bs

/-- List-level infix test used to model strings.Contains. -/
def isInfixOfL (needle : List Char) : List Char → Bool
  | [] => isPrefixOfL needle []
  | b :: bs => isPrefixOfL needle (b :: bs) || isInfixOfL needle bs

/-- Model of Go strings.Contains: does sub occur inside s? -/
def strContains (s sub : String) : Bool := isInfixOfL sub.data s.data

/-- Model of Go strings.Join (main.go buildCommitMessage): tail part, each
element preceded by the separator. -/
def strJoinRest (sep : String) : List String → String
  | [] => ""
  | s :: rest => sep ++ s ++ strJoinRest sep rest

/-- Model of Go strings.Join: empty for the empty list, otherwise the head
followed by separator-prefixed remaining elements. -/
def strJoin (sep : String) : List String → String
  | [] => ""
  | s :: rest => s ++ strJoinRest sep rest

/-- Model of Go filepath.Join on two components (path cleaning on literal
components without separators is the identity). -/
def fpJoin (a b : String) : String := a ++ "/" ++ b

/-- dbConfig from main.go: database server configuration. -/
structure DbConfig where
  host : String
  database : String
  user : String
  password : String

/-- config from main.go: database, output location and git configuration. -/
structure Config where
  db : DbConfig
  outDir : String
  gitName : String
  gitEmail : String

/-- dbConfig.isValid from main.go: the first failing check, or none. -/
def dbConfigIsValid (c : DbConfig) : Option String :=
  if c.host.length = 0 then some "Missing host"
  else if c.database.length = 0 then some "Missing database name"
  else none

/-- config.isValid from main.go.  The os.Stat existence check on the output
directory is abstracted as the boolean outDirExists. -/
def configIsValid (c : Config) (outDirExists : Bool) : Option String :=
  if c.outDir.length = 0 then some "Missing output directory"
  else if !outDirExists then some "Output directory does not exist"
  else if c.gitName.length = 0 then some "No git username provided"
  else if c.gitEmail.length = 0 then some "No git email provided"
  else dbConfigIsValid c.db

/-- One result row of the sp_helptext query in writeProcedureBody: either it
scans to a text fragment, or rows.Scan fails with an error message. -/
inductive RowOutcome where
  | frag (text : String)
  | scanErr (msg : String)

/-- The abstract database: per procedure name, either the query itself fails
(db.Query error) or it yields a list of rows. -/
def Fetch : Type := String → Except String (List RowOutcome)

/-- The row loop of writeProcedureBody (main.go lines 132-143): accumulate
fragment text into the buffered writer; on a scan failure stop and report
the error prefixed with the procedure name. -/
def processRows (name : String) : List RowOutcome → String → String × Option String
  | [], written => (written, none)
  | RowOutcome.frag t :: rest, written => processRows name rest (written ++ t)
  | RowOutcome.scanErr m :: _, written => (written, some (name ++ ": " ++ m))

/-- writeProcedureBody from main.go: query the body of the named procedure
and write its fragments in order.  Returns the content that reached the
writer and the error, if any.  A failing query writes nothing. -/
def writeProcedureBody (fetch : Fetch) (name : String) : String × Option String :=
  match fetch name with
  | Except.error e => ("", some e)
  | Except.ok rows => processRows name rows ""

/-- The destination path computed by saveProcedure (main.go line 108):
filepath.Join(conf.outDir, conf.db.database, name + ".sql"), reading the
global conf, not the outDir parameter. -/
def spPath (conf : Config) (name : String) : String :=
  fpJoin (fpJoin conf.outDir conf.db.database) (name ++ ".sql")

/-- The filesystem: an association list from paths to file contents. -/
abbrev FS := List (String × String)

/-- os.Create semantics: create the file at path p with content c, replacing
any previous file at that path. -/
def setFile (fs : FS) (p c : String) : FS :=
  (p, c) :: fs.filter (fun e => e.1 != p)

/-- saveProcedure from main.go: create (truncate) the destination file named
from the global conf, then fetch and write the body.  The deferred flush
and close mean the fragments written before a failure remain in the file.
os.Create itself is assumed to succeed; the outDir parameter is unused,
exactly as in the source. -/
def saveProcedure (conf : Config) (fetch : Fetch) (name : String)
    (outDir : String) (fs : FS) : FS × Option String :=
  let outFileName := spPath conf name
  let res := writeProcedureBody fetch name
  (setFile fs outFileName res.1, res.2)

/-- The filesystem effect of the workers: every name is saved exactly once
(channel delivery); names are folded in list order, which fixes one
interleaving of the per-name file writes. -/
def runSaves (conf : Config) (fetch : Fetch) (outDir : String) :
    List String → FS → FS
  | [], fs => fs
  | n :: ns, fs => runSaves conf fetch outDir ns (saveProcedure conf fetch n outDir fs).1

/-- The error text that the aggregator in saveAllProcedures (main.go line
181) special-cases by substring match and does not count. -/
def scanMagicMsg : String := "sql: expected 2 destination arguments in Scan, not 1"

/-- Whether one worker result increments errCount in the aggregator: a
non-nil error whose text does not contain scanMagicMsg. -/
def countedFailure : Option String → Bool
  | none => false
  | some e => !(strContains e scanMagicMsg)

/-- The aggregator count over all worker results. -/
def countErrors (results : List (Option String)) : Nat :=
  (results.filter countedFailure).length

/-- The worker-spawning loop of saveAllProcedures (main.go line 194):
for w := 0; w <= workerCount; w++ launches one goroutine per iteration. -/
def spawnWorkers (w : Int) (workerCount : Int) : Nat :=
  if h : w ≤ workerCount then 1 + spawnWorkers (w + 1) workerCount else 0
termination_by (workerCount + 1 - w).toNat
decreasing_by omega

/-- Observable outcome of one run of saveAllProcedures. -/
structure SaveRun where
  fs : FS
  workersLaunched : Nat
  resultsExchanged : Nat
  errCount : Nat
  retErr : Option String

/-- saveAllProcedures from main.go.  os.MkdirAll is abstracted by mkdirErr;
on its failure the function returns that error before any worker or channel
activity.  Otherwise all names are delivered to workers exactly once, each
yields exactly one result, the aggregator consumes len(names) results and
counts failures per countedFailure, and the function returns an aggregate
error iff the count is positive. -/
def saveAllProcedures (names : List String) (workerCount : Int)
    (fetch : Fetch) (conf : Config) (mkdirErr : Option String) (fs0 : FS) : SaveRun :=
  match mkdirErr with
  | some e =>
    { fs := fs0, workersLaunched := 0, resultsExchanged := 0,
      errCount := 0, retErr := some e }
  | none =>
    let outDir := fpJoin conf.outDir conf.db.database
    let ec := countErrors (names.map (fun n => (writeProcedureBody fetch n).2))
    { fs := runSaves conf fetch outDir names fs0
      workersLaunched := spawnWorkers 0 workerCount
      resultsExchanged := names.length
      errCount := ec
      retErr :=
        if 0 < ec then
          some (toString ec ++ " errors occured while saving stored procedures")
        else none }

/-- buildCommitMessage from main.go line 314. -/
def buildCommitMessage (database : String) (changedPaths : List String) : String :=
  let pathsString := strJoin "\n" changedPaths
  "Update with procedures from database " ++ sQuote ++ database ++ sQuote ++
    "\n\nThese files have changed:\n\n" ++ pathsString

/-- Outcome of the repo.Head / LookupBranch / LookupCommit sequence in
getHeadCommit (main.go lines 291-308), with commits named by numeric ids. -/
inductive HeadState where
  | unborn
  | headFail (msg : String)
  | branchFail (msg : String)
  | commitFail (msg : String)
  | commitAt (id : Nat)

/-- getHeadCommit from main.go: an unborn branch yields no commit and no
error; any other failure propagates; otherwise the target commit of the
master branch is returned. -/
def getHeadCommit : HeadState → Except String (Option Nat)
  | HeadState.unborn => Except.ok none
  | HeadState.headFail m => Except.error m
  | HeadState.branchFail m => Except.error m
  | HeadState.commitFail m => Except.error m
  | HeadState.commitAt i => Except.ok (some i)

/-- Outcomes of the libgit2 calls made by commitChanges, in call order.
addAllPaths holds the relative paths the AddAll callback reported;
addAllErr is the error value RETURNED by idx.AddAll, which the source
discards (the if err != nil on main.go line 240 re-checks the stale error
of repo.Index, which is nil at that point). -/
structure CommitEnv where
  indexErr : Option String
  addAllPaths : List String
  addAllErr : Option String
  writeTreeResult : Except String Nat
  indexWriteErr : Option String
  lookupTreeErr : Option String
  headState : HeadState
  createCommitErr : Option String

/-- Result of commitChanges. -/
inductive CommitOutcome where
  | failed (msg : String)
  | noChanges
  | committed (parent : Option Nat) (message : String)

/-- commitChanges result plus which persistent objects were written. -/
structure CommitTrace where
  outcome : CommitOutcome
  wroteTree : Bool
  wroteIndex : Bool
  createdCommit : Bool

/-- commitChanges from main.go lines 227-288.  Mirrors the source control
flow: the error returned by AddAll is dropped (env.addAllErr is unused, as
in the source); an empty changedFiles list short-circuits before any index,
tree or commit write; otherwise WriteTree, idx.Write, LookupTree,
getHeadCommit and CreateCommit run in order, any failure propagating, and
the commit gets the head commit as its parent when one exists. -/
def commitChanges (env : CommitEnv) (conf : Config) : CommitTrace :=
  match env.indexErr with
  | some e => ⟨CommitOutcome.failed e, false, false, false⟩
  | none =>
    let changedFiles := env.addAllPaths
    if changedFiles.length = 0 then ⟨CommitOutcome.noChanges, false, false, false⟩
    else
      match env.writeTreeResult with
      | Except.error e => ⟨CommitOutcome.failed e, false, false, false⟩
      | Except.ok _ =>
        match env.indexWriteErr with
        | some e => ⟨CommitOutcome.failed e, true, false, false⟩
        | none =>
          match env.lookupTreeErr with
          | some e => ⟨CommitOutcome.failed e, true, true, false⟩
          | none =>
            match getHeadCommit env.headState with
            | Except.error e => ⟨CommitOutcome.failed e, true, true, false⟩
            | Except.ok headCommit =>
              let message := buildCommitMessage conf.db.database changedFiles
              match env.createCommitErr with
              | some e => ⟨CommitOutcome.failed e, true, true, false⟩
              | none => ⟨CommitOutcome.committed headCommit message, true, true, true⟩

/-- Outcomes of the external collaborators consumed by main, in call order. -/
structure MainEnv where
  outDirExists : Bool
  connectErr : Option String
  namesResult : Except String (List String)
  fetch : Fetch
  mkdirErr : Option String
  repoErr : Option String
  commitEnv : CommitEnv

/-- Observable result of one run of main: the process exit code, whether
the commit phase was reached at all, and the message printed by the failing
checkFatal, if any. -/
structure MainResult where
  exitCode : Nat
  commitAttempted : Bool
  fatalMsg : Option String

/-- main from main.go lines 317-336: each step is wrapped in checkFatal,
which exits the process with status 1 on the first non-nil error.  The
worker count passed to saveAllProcedures is the literal 5 (line 328). -/
def runMain (conf : Config) (env : MainEnv) : MainResult :=
  match configIsValid conf env.outDirExists with
  | some e => ⟨1, false, some e⟩
  | none =>
  match env.connectErr with
  | some e => ⟨1, false, some e⟩
  | none =>
  match env.namesResult with
  | Except.error e => ⟨1, false, some e⟩
  | Except.ok names =>
  match (saveAllProcedures names 5 env.fetch conf env.mkdirErr []).retErr with
  | some e => ⟨1, false, some e⟩
  | none =>
  match env.repoErr with
  | some e => ⟨1, false, some e⟩
  | none =>
  match (commitChanges env.commitEnv conf).outcome with
  | CommitOutcome.failed e => ⟨1, true, some e⟩
  | _ => ⟨0, true, none⟩

/-- Plain concatenation of a list of text fragments. -/
def concatAll : List String → String
  | [] => ""
  | s :: rest => s ++ concatAll rest

/-- Closed form of the worker-spawning loop: the loop body runs once for
every integer from w up to workerCount inclusive. -/
theorem spawnWorkers_closed (w workerCount : Int) :
    spawnWorkers w workerCount = (workerCount + 1 - w).toNat := by
  generalize hn : (workerCount + 1 - w).toNat = n
  induction n generalizing w with
  | zero =>
    have hw : ¬ w ≤ workerCount := by omega
    unfold spawnWorkers
    simp [hw]
  | succ k ih =>
    have hw : w ≤ workerCount := by omega
    unfold spawnWorkers
    simp only [hw, dite_true]
    rw [ih (w + 1) (by omega)]
    omega

/-- Appending a fixed suffix to a string is injective. -/
theorem strAppendRightInj {a b c : String} (h : a ++ c = b ++ c) : a = b := by
  apply String.ext
  have hd := congrArg String.data h
  simp only [String.data_append] at hd
  exact List.append_cancel_right hd

/-- Appending to a fixed prefix is injective. -/
theorem strAppendLeftInj {a b c : String} (h : c ++ a = c ++ b) : a = b := by
  apply String.ext
  have hd := congrArg String.data h
  simp only [String.data_append] at hd
  exact List.append_cancel_left hd

/-- Distinct procedure names yield distinct destination paths. -/
theorem spPath_inj (conf : Config) {a b : String}
    (h : spPath conf a = spPath conf b) : a = b := by
  unfold spPath fpJoin at h
  have h1 : a ++ ".sql" = b ++ ".sql" := strAppendLeftInj h
  exact strAppendRightInj h1

/-- Filtering out a path that occurs nowhere in the filesystem is a no-op. -/
theorem filter_ne_of_fresh (fs : FS) (p : String)
    (h : ∀ e ∈ fs, e.1 ≠ p) : fs.filter (fun e => e.1 != p) = fs := by
  induction fs with
  | nil => rfl
  | cons e rest ih =>
    have h1 : e.1 ≠ p := h e (List.mem_cons_self _ _)
    simp only [List.filter_cons]
    rw [if_pos (by simpa using h1)]
    rw [ih (fun x hx => h x (List.mem_cons_of_mem _ hx))]

/-- Saving a list of pairwise-distinct names whose paths are all absent from
the starting filesystem prepends, in reverse processing order, one file per
name holding exactly what writeProcedureBody produced for it. -/
theorem runSaves_fresh (conf : Config) (fetch : Fetch) (outDir : String)
    (names : List String) (fs : FS) (hnd : names.Nodup)
    (hfresh : ∀ n ∈ names, ∀ e ∈ fs, e.1 ≠ spPath conf n) :
    runSaves conf fetch outDir names fs
      = (names.map (fun n => (spPath conf n, (writeProcedureBody fetch n).1))).reverse ++ fs := by
  induction names generalizing fs with
  | nil => simp [runSaves]
  | cons n ns ih =>
    have hnotmem : n ∉ ns := (List.nodup_cons.mp hnd).1
    have hndns : ns.Nodup := (List.nodup_cons.mp hnd).2
    have hfilter : fs.filter (fun e => e.1 != spPath conf n) = fs :=
      filter_ne_of_fresh fs _ (fun e he => hfresh n (List.mem_cons_self _ _) e he)
    have step : runSaves conf fetch outDir (n :: ns) fs
        = runSaves conf fetch outDir ns
            ((spPath conf n, (writeProcedureBody fetch n).1) :: fs) := by
      simp [runSaves, saveProcedure, setFile, hfilter]
    rw [step]
    have hfresh2 : ∀ m ∈ ns,
        ∀ e ∈ (spPath conf n, (writeProcedureBody fetch n).1) :: fs,
          e.1 ≠ spPath conf m := by
      intro m hm e he
      rcases List.mem_cons.mp he with hhead | htail
      · subst hhead
        intro hEq
        exact hnotmem (spPath_inj conf hEq ▸ hm)
      · exact hfresh m (List.mem_cons_of_mem _ hm) e htail
    rw [ih _ hndns hfresh2]
    simp [List.append_assoc]

/-- A fetch whose rows all scan successfully writes the in-order
concatenation of its fragments after the accumulated content. -/
theorem processRows_frags (name : String) (frags : List String) (acc : String) :
    processRows name (frags.map RowOutcome.frag) acc = (acc ++ concatAll frags, none) := by
  induction frags generalizing acc with
  | nil => simp [processRows, concatAll]
  | cons f fs ih =>
    simp [processRows, concatAll, ih, String.append_assoc]

/-- Splitting the fixed middle block of the commit message into its lines. -/
theorem newlineBlockSplit :
    ("\n\nThese files have changed:\n\n" : String)
      = "\n" ++ "\n" ++ "These files have changed:" ++ "\n" ++ "\n" := rfl

/-- Concrete valid configuration used by witnesses and counterexamples. -/
def conf0 : Config :=
  { db := { host := "localhost", database := "db", user := "sa", password := "pw" }
    outDir := "out"
    gitName := "spkeeper"
    gitEmail := "spkeeper@example.com" }

/-- A database on which every body query fails. -/
def fetchFail : Fetch := fun _ => Except.error "boom"

/-- A database on which every body query succeeds with no rows. -/
def fetchAllOk : Fetch := fun _ => Except.ok []

/-- A database whose rows fail to scan with exactly the error text that the
aggregator special-cases. -/
def fetchMagic : Fetch := fun _ => Except.ok [RowOutcome.scanErr scanMagicMsg]

/-- A database where procedure a fails to fetch and every other one
succeeds with no rows. -/
def fetchMix : Fetch := fun n =>
  if n = "a" then Except.error "x" else Except.ok []

/-- A database with two procedures: a has one fragment, every other name
has two fragments. -/
def fetchTwo : Fetch := fun n =>
  if n = "a" then Except.ok [RowOutcome.frag "A1"]
  else Except.ok [RowOutcome.frag "B1", RowOutcome.frag "B2"]

/-- A committer environment in which every git call succeeds and staging
reports no changed files, on an unborn repository. -/
def cenvIdle : CommitEnv :=
  { indexErr := none
    addAllPaths := []
    addAllErr := none
    writeTreeResult := Except.ok 0
    indexWriteErr := none
    lookupTreeErr := none
    headState := HeadState.unborn
    createCommitErr := none }

/-- A committer environment with one staged path and head commit 7. -/
def cenvCommit7 : CommitEnv :=
  { cenvIdle with addAllPaths := ["db/a.sql"], headState := HeadState.commitAt 7 }

/-- Like cenvCommit7, but AddAll also returns an error after its callback
recorded one path. -/
def cenvAddAllErr : CommitEnv :=
  { cenvCommit7 with addAllErr := some "failed to add files to index" }

/-- AddAll fails before its callback reported anything. -/
def cenvAddAllErrEmpty : CommitEnv :=
  { cenvIdle with addAllErr := some "failed to add files to index" }

/-- A main environment whose single procedure p fails to fetch. -/
def menvFail : MainEnv :=
  { outDirExists := true
    connectErr := none
    namesResult := Except.ok ["p"]
    fetch := fetchFail
    mkdirErr := none
    repoErr := none
    commitEnv := cenvIdle }

/-- A main environment whose single procedure p saves fine and whose
staging reports no changes. -/
def menvNoChanges : MainEnv := { menvFail with fetch := fetchAllOk }

/-- C10: saveProcedure ignores its outDir parameter entirely: for every
value passed as outDir (including the one threaded through the workers),
the destination file path is computed solely from the global configuration
as conf.outDir/conf.db.database/name.sql, so two calls differing only in
the outDir argument write to the same path and are fully identical. -/
theorem c10_outdir_ignored (conf : Config) (fetch : Fetch) (name o1 o2 : String) (fs : FS) :
    saveProcedure conf fetch name o1 fs = saveProcedure conf fetch name o2 fs
    ∧ (saveProcedure conf fetch name o1 fs).1
        = setFile fs (fpJoin (fpJoin conf.outDir conf.db.database) (name ++ ".sql"))
            (writeProcedureBody fetch name).1 :=
  ⟨rfl, rfl⟩

/-- C9: for every non-empty ChangeSet, the commit message is exactly the
newline-join of: a summary line naming the database, a blank line, the
literal line about changed files, a blank line, then the staged paths one
per line in the order they were recorded. -/
theorem c9_commit_message (database : String) (changedPaths : List String)
    (h : changedPaths ≠ []) :
    buildCommitMessage database changedPaths
      = strJoin "\n"
          (("Update with procedures from database " ++ sQuote ++ database ++ sQuote)
            :: "" :: "These files have changed:" :: "" :: changedPaths) := by
  cases changedPaths with
  | nil => exact absurd rfl h
  | cons p ps =>
    simp only [buildCommitMessage, strJoin, strJoinRest, newlineBlockSplit,
      String.append_assoc, String.empty_append]

/-- Witness for C9 at a concrete database and one-element path list. -/
theorem c9_witness :
    buildCommitMessage "orders" ["orders/CancelOrder.sql"]
      = strJoin "\n"
          (("Update with procedures from database " ++ sQuote ++ "orders" ++ sQuote)
            :: "" :: "These files have changed:" :: "" :: ["orders/CancelOrder.sql"]) :=
  c9_commit_message "orders" ["orders/CancelOrder.sql"] (by decide)

/-- C7: for every run of the committer in which staging reports an empty
ChangeSet, the committer terminates successfully without writing any index,
tree, or commit object, reports no changes as a non-error outcome, and the
process exits 0. -/
theorem c7_empty_changeset (conf : Config) (env : MainEnv) (names : List String)
    (hidx : env.commitEnv.indexErr = none)
    (hpaths : env.commitEnv.addAllPaths = [])
    (hconf : configIsValid conf env.outDirExists = none)
    (hconn : env.connectErr = none)
    (hnames : env.namesResult = Except.ok names)
    (hsave : (saveAllProcedures names 5 env.fetch conf env.mkdirErr []).retErr = none)
    (hrepo : env.repoErr = none) :
    commitChanges env.commitEnv conf = ⟨CommitOutcome.noChanges, false, false, false⟩
    ∧ runMain conf env = ⟨0, true, none⟩ := by
  have hc : commitChanges env.commitEnv conf
      = ⟨CommitOutcome.noChanges, false, false, false⟩ := by
    unfold commitChanges
    rw [hidx, hpaths]
    rfl
  refine ⟨hc, ?_⟩
  simp [runMain, hconf, hconn, hnames, hsave, hrepo, hc]

/-- Witness for C7 at a concrete run with one cleanly saved procedure and
no staged changes. -/
theorem c7_witness :
    commitChanges menvNoChanges.commitEnv conf0 = ⟨CommitOutcome.noChanges, false, false, false⟩
    ∧ runMain conf0 menvNoChanges = ⟨0, true, none⟩ :=
  c7_empty_changeset conf0 menvNoChanges ["p"] rfl rfl rfl rfl rfl rfl rfl

/-- C8: for every commit created by the committer, the parent recorded in
the commit is exactly what getHeadCommit resolved: none when the branch is
unborn, and the current head commit of the target branch otherwise. -/
theorem c8_commit_parent (env : CommitEnv) (conf : Config) (p : Option Nat) (m : String)
    (h : (commitChanges env conf).outcome = CommitOutcome.committed p m) :
    getHeadCommit env.headState = Except.ok p
    ∧ (env.headState = HeadState.unborn → p = none)
    ∧ (∀ i, env.headState = HeadState.commitAt i → p = some i) := by
  have hmain : getHeadCommit env.headState = Except.ok p := by
    unfold commitChanges at h
    repeat' split at h
    all_goals by_cases hp : env.addAllPaths = []
    all_goals simp_all [List.length_eq_zero]
  refine ⟨hmain, ?_, ?_⟩
  · intro hu
    rw [hu] at hmain
    simp [getHeadCommit] at hmain
    exact hmain.symm
  · intro i hi
    rw [hi] at hmain
    simp [getHeadCommit] at hmain
    exact hmain.symm

/-- Witness for C8 at a concrete environment whose branch head is commit 7
and whose staging reports one path. -/
theorem c8_witness : getHeadCommit cenvCommit7.headState = Except.ok (some 7) :=
  (c8_commit_parent cenvCommit7 conf0 (some 7)
    (buildCommitMessage "db" ["db/a.sql"]) rfl).1

/-- C2 is violated by the source: idx.AddAll's returned error is discarded
(main.go line 236; the check on line 240 re-reads the stale nil error from
repo.Index), so a run whose staging operation fails still proceeds: with
one path recorded before the failure a commit is created from the
partially staged index, and with no path recorded the failure is reported
as a successful no-changes run. -/
theorem c2_addall_error_ignored :
    commitChanges cenvAddAllErr conf0
      = ⟨CommitOutcome.committed (some 7) (buildCommitMessage "db" ["db/a.sql"]), true, true, true⟩
    ∧ cenvAddAllErr.addAllErr = some "failed to add files to index"
    ∧ commitChanges cenvAddAllErrEmpty conf0 = ⟨CommitOutcome.noChanges, false, false, false⟩
    ∧ cenvAddAllErrEmpty.addAllErr = some "failed to add files to index" :=
  ⟨rfl, rfl, rfl, rfl⟩

/-- C1 as stated is false on the source: main wraps saveAllProcedures in
checkFatal (main.go line 328), so a run whose save phase counted failures
exits with status 1 before getRepo or commitChanges ever run. -/
theorem c1_commit_skipped_cex :
    (runMain conf0 menvFail).commitAttempted = false
    ∧ (runMain conf0 menvFail).exitCode = 1
    ∧ (saveAllProcedures ["p"] 5 fetchFail conf0 none []).errCount = 1
    ∧ configIsValid conf0 true = none :=
  ⟨rfl, rfl, rfl, rfl⟩

/-- C1 amended: when configuration, connection and listing succeed and the
save phase counts k > 0 failures, the run exits with status 1 carrying the
aggregate message with the summary count, and the commit phase is never
attempted. -/
theorem c1_fatal_after_save (conf : Config) (env : MainEnv) (names : List String) (k : Nat)
    (hconf : configIsValid conf env.outDirExists = none)
    (hconn : env.connectErr = none)
    (hnames : env.namesResult = Except.ok names)
    (hmk : env.mkdirErr = none)
    (hk : (saveAllProcedures names 5 env.fetch conf none []).errCount = k)
    (hkpos : 0 < k) :
    runMain conf env
      = ⟨1, false, some (toString k ++ " errors occured while saving stored procedures")⟩ := by
  have hec : countErrors (names.map (fun n => (writeProcedureBody env.fetch n).2)) = k := by
    simpa [saveAllProcedures] using hk
  have hret : (saveAllProcedures names 5 env.fetch conf none []).retErr
      = some (toString k ++ " errors occured while saving stored procedures") := by
    simp [saveAllProcedures, hec, hkpos]
  simp [runMain, hconf, hconn, hnames, hmk, hret]

/-- Witness for the amended C1 at a concrete failing run. -/
theorem c1_witness :
    runMain conf0 menvFail
      = ⟨1, false, some (toString 1 ++ " errors occured while saving stored procedures")⟩ :=
  c1_fatal_after_save conf0 menvFail ["p"] 1 rfl rfl rfl rfl rfl (by decide)

/-- C3 as stated is false on the source: a failure whose message contains
the special-cased Scan error text is reported but not counted, so a run
with one such failing procedure returns success with an aggregate count of
zero instead of an aggregate error carrying count 1. -/
theorem c3_magic_not_counted_cex :
    (writeProcedureBody fetchMagic "p").2 = some ("p" ++ ": " ++ scanMagicMsg)
    ∧ (saveAllProcedures ["p"] 5 fetchMagic conf0 none []).errCount = 0
    ∧ (saveAllProcedures ["p"] 5 fetchMagic conf0 none []).retErr = none :=
  ⟨rfl, rfl, rfl⟩

/-- C3 amended: the aggregate failure count equals the number of
per-procedure results that are errors whose text does not contain the
special-cased Scan message; that count is invariant under any scheduling
permutation of the results and is independent of the worker count, the
configuration and the prior filesystem, and the pipeline returns success
iff the count is zero. -/
theorem c3_aggregate_count (names : List String) (workerCount workerCount2 : Int)
    (fetch : Fetch) (conf conf2 : Config) (fs fs2 : FS)
    (results : List (Option String))
    (hperm : results.Perm (names.map (fun n => (writeProcedureBody fetch n).2))) :
    countErrors results = (saveAllProcedures names workerCount fetch conf none fs).errCount
    ∧ (saveAllProcedures names workerCount fetch conf none fs).errCount
        = (saveAllProcedures names workerCount2 fetch conf2 none fs2).errCount
    ∧ ((saveAllProcedures names workerCount fetch conf none fs).retErr = none
        ↔ (saveAllProcedures names workerCount fetch conf none fs).errCount = 0) := by
  refine ⟨?_, rfl, ?_⟩
  · have hl := (hperm.filter countedFailure).length_eq
    simpa [saveAllProcedures, countErrors] using hl
  · by_cases hec : countErrors (names.map (fun n => (writeProcedureBody fetch n).2)) = 0
    · simp [saveAllProcedures, hec]
    · have hpos : 0 < countErrors (names.map (fun n => (writeProcedureBody fetch n).2)) :=
        Nat.pos_of_ne_zero hec
      simp [saveAllProcedures, hec, hpos]

/-- Witness for the amended C3: two procedures, one failing, evaluated
against a reordered result list and two worker counts. -/
theorem c3_witness :
    countErrors [none, some "x"] = (saveAllProcedures ["a", "b"] 1 fetchMix conf0 none []).errCount
    ∧ (saveAllProcedures ["a", "b"] 1 fetchMix conf0 none []).errCount
        = (saveAllProcedures ["a", "b"] 2 fetchMix conf0 none [("q", "r")]).errCount
    ∧ ((saveAllProcedures ["a", "b"] 1 fetchMix conf0 none []).retErr = none
        ↔ (saveAllProcedures ["a", "b"] 1 fetchMix conf0 none []).errCount = 0) :=
  c3_aggregate_count ["a", "b"] 1 2 fetchMix conf0 conf0 [] [("q", "r")]
    [none, some "x"] (by decide)

/-- C4 as stated is false on the source: with the configured worker count
of 5, the loop for w := 0; w <= workerCount; w++ launches 6 workers, more
than W. -/
theorem c4_workers_cex :
    ¬ ((saveAllProcedures ["p"] 5 fetchAllOk conf0 none []).workersLaunched ≤ 5) := by
  simp only [saveAllProcedures, spawnWorkers_closed]
  decide

/-- C4 amended: for every non-negative configured worker count W, the save
pipeline launches exactly W + 1 worker tasks. -/
theorem c4_worker_count (names : List String) (workerCount : Int) (fetch : Fetch)
    (conf : Config) (fs : FS) (h : 0 ≤ workerCount) :
    (saveAllProcedures names workerCount fetch conf none fs).workersLaunched
      = workerCount.toNat + 1 := by
  simp only [saveAllProcedures, spawnWorkers_closed]
  omega

/-- Witness for the amended C4 at the worker count used by main. -/
theorem c4_witness :
    (saveAllProcedures ["p"] 5 fetchAllOk conf0 none []).workersLaunched
      = (5 : Int).toNat + 1 :=
  c4_worker_count ["p"] 5 fetchAllOk conf0 [] (by decide)

/-- C5 as stated is false on the source: saveProcedure creates (and
truncates) the destination file before fetching, so a procedure whose
fetch fails still gets a file — here 1 file exists although all 1 fetches
failed, with the aggregate error reported alongside. -/
theorem c5_failed_fetch_file_created_cex :
    (saveAllProcedures ["p"] 1 fetchFail conf0 none []).fs = [(spPath conf0 "p", "")]
    ∧ (saveAllProcedures ["p"] 1 fetchFail conf0 none []).retErr
        = some "1 errors occured while saving stored procedures"
    ∧ (writeProcedureBody fetchFail "p").2 = some "boom" :=
  ⟨rfl, rfl, rfl⟩

/-- C5 amended: for pairwise-distinct names the pipeline writes exactly one
file per submitted name — including names whose fetch failed, whose files
hold the fragments received before the failure (empty on a query error) —
and the file of every procedure whose rows all scan successfully holds the
exact in-order concatenation of its fragments. -/
theorem c5_files_written (names : List String) (workerCount : Int) (fetch : Fetch)
    (conf : Config) (hnd : names.Nodup) :
    (saveAllProcedures names workerCount fetch conf none []).fs
      = (names.map (fun n => (spPath conf n, (writeProcedureBody fetch n).1))).reverse
    ∧ (saveAllProcedures names workerCount fetch conf none []).fs.length = names.length
    ∧ (∀ n frags, fetch n = Except.ok (frags.map RowOutcome.frag) →
        (writeProcedureBody fetch n).1 = concatAll frags) := by
  have hfs : (saveAllProcedures names workerCount fetch conf none []).fs
      = (names.map (fun n => (spPath conf n, (writeProcedureBody fetch n).1))).reverse := by
    have h := runSaves_fresh conf fetch (fpJoin conf.outDir conf.db.database) names [] hnd
      (fun n _ e he => absurd he (List.not_mem_nil e))
    simpa [saveAllProcedures] using h
  refine ⟨hfs, ?_, ?_⟩
  · rw [hfs]
    simp
  · intro n frags hfetch
    simp [writeProcedureBody, hfetch, processRows_frags]

/-- Witness for the amended C5: two distinct procedures with one and two
fragments respectively are both written with concatenated bodies. -/
theorem c5_witness :
    (saveAllProcedures ["a", "b"] 2 fetchTwo conf0 none []).fs
      = [(spPath conf0 "b", "B1B2"), (spPath conf0 "a", "A1")] := by
  have h := (c5_files_written ["a", "b"] 2 fetchTwo conf0 (by decide)).1
  rw [h]
  rfl

/-- C6 as stated is false on the source: on an empty name list the pipeline
does return success and exchanges nothing on the results channel, but it
still launches workerCount + 1 worker goroutines. -/
theorem c6_workers_launched_cex :
    (saveAllProcedures [] 5 fetchAllOk conf0 none []).retErr = none
    ∧ (saveAllProcedures [] 5 fetchAllOk conf0 none []).workersLaunched ≠ 0 := by
  refine ⟨rfl, ?_⟩
  simp only [saveAllProcedures, spawnWorkers_closed]
  decide

/-- C6 amended: on an empty name list the pipeline returns success, sends
and receives nothing on the results channel, and leaves the filesystem
untouched, but still launches workerCount + 1 workers, which terminate
immediately. -/
theorem c6_empty_list (workerCount : Int) (fetch : Fetch) (conf : Config) (fs : FS)
    (h : 0 ≤ workerCount) :
    (saveAllProcedures [] workerCount fetch conf none fs).retErr = none
    ∧ (saveAllProcedures [] workerCount fetch conf none fs).resultsExchanged = 0
    ∧ (saveAllProcedures [] workerCount fetch conf none fs).fs = fs
    ∧ (saveAllProcedures [] workerCount fetch conf none fs).workersLaunched
        = workerCount.toNat + 1 := by
  refine ⟨rfl, rfl, rfl, ?_⟩
  simp only [saveAllProcedures, spawnWorkers_closed]
  omega

/-- Witness for the amended C6 at the worker count used by main. -/
theorem c6_witness :
    (saveAllProcedures [] 5 fetchAllOk conf0 none []).retErr = none
    ∧ (saveAllProcedures [] 5 fetchAllOk conf0 none []).resultsExchanged = 0
    ∧ (saveAllProcedures [] 5 fetchAllOk conf0 none []).fs = []
    ∧ (saveAllProcedures [] 5 fetchAllOk conf0 none []).workersLaunched = (5 : Int).toNat + 1 :=
  c6_empty_list 5 fetchAllOk conf0 [] (by decide)
